import Mathlib

/-!
Shallow embedding of the CaMeL security runtime (repository `camel-labs`)
and verification of its specification claims.

The Python modules are embedded as follows:

* `camel/capabilities.py` — capability labels, label sets, the tracker and
  the security policies (`EmailSecurityPolicy`, `FileAccessPolicy`).
* `camel/mcp_security.py` — the `ToolShadowingDetector`.
* `camel/llm.py` — the quarantined LLM's output schema validator
  `QuarantinedLLM._validate_output` (the network-facing LLM calls themselves
  are external effects and are not modelled; registered tool functions are
  abstract Lean functions).
* `camel/interpreter.py` — the restricted AST, the `RestrictedASTVisitor`
  validator and the `CaMeLInterpreter` evaluator, including its
  capability-tracking assignment and policy-gated call semantics.

Modelling conventions, noted once here:

* Python `dict`s and environments are embedded as functions into `Option`;
  Python `set`s of hashable records are embedded as lists whose membership
  is the set's membership (no proved property observes duplicates or order).
* Python string operations are given executable list-of-character
  definitions (`pyLower`, `pyIn`, `pyStrip`, …) mirroring `str.lower`,
  the `in` substring test, `str.strip` and character membership.
* Python exceptions are `Except String`; object mutation is explicit state
  passing, and an error carries the state at the moment of the raise, which
  is exactly the mutation the Python interpreter object retains.
* `uuid`-based `data_id` fields and informational `metadata` dictionaries
  are omitted: no modelled code path reads them (`Capability.__hash__`
  hashes only the kind and the source).
* `ast.parse` is CPython's parser and is not modelled: programs enter the
  embedding as abstract syntax trees.
-/

namespace Camel

/-! ## Python string primitives -/

/-- Python `str.lower()`. -/
def pyLower (s : String) : String := ⟨s.data.map Char.toLower⟩

/-- Python substring containment `needle in haystack`. -/
def pyIn (needle haystack : String) : Bool :=
  decide (List.IsInfix needle.data haystack.data)

/-- Python `str.strip()`: remove leading and trailing whitespace. -/
def pyStrip (s : String) : String :=
  ⟨((s.data.dropWhile Char.isWhitespace).reverse.dropWhile Char.isWhitespace).reverse⟩

/-- Python `c in s` for a single character. -/
def pyHasChar (s : String) (c : Char) : Bool := s.data.contains c

/-- Lexicographic code-point comparison, Python `str.__lt__`. -/
def pyCharsLt : List Char → List Char → Bool
  | [], [] => false
  | [], _ :: _ => true
  | _ :: _, [] => false
  | a :: as, b :: bs => if a < b then true else if b < a then false else pyCharsLt as bs

/-! ## capabilities.py — labels and label sets -/

/-- Enumeration `CapabilityType` of `capabilities.py`. -/
inductive CapabilityType where
  | READ
  | WRITE
  | EXECUTE
  | NETWORK
  | TRUSTED
  | UNTRUSTED
deriving DecidableEq, Repr

/-- Dataclass `Capability`: a (kind, source) label.  The informational
`metadata` dict is omitted (hashing and every modelled read use only the
kind and the source). -/
structure Capability where
  capability_type : CapabilityType
  source : String
deriving DecidableEq, Repr

/-- Dataclass `CapabilitySet`: the Python `set` of capabilities, embedded as
a list whose membership is the set's membership.  The `uuid` `data_id` is
omitted. -/
structure CapabilitySet where
  capabilities : List Capability
deriving DecidableEq, Repr

/-- Method `CapabilitySet.add`. -/
def CapabilitySet.add (s : CapabilitySet) (capability : Capability) : CapabilitySet :=
  ⟨s.capabilities ++ [capability]⟩

/-- Method `CapabilitySet.has_capability` (every modelled call site passes
`source=None`, so the optional source filter is dropped). -/
def CapabilitySet.has_capability (s : CapabilitySet) (t : CapabilityType) : Bool :=
  s.capabilities.any (fun cap => cap.capability_type == t)

/-- Method `CapabilitySet.is_trusted`. -/
def CapabilitySet.is_trusted (s : CapabilitySet) : Bool :=
  s.has_capability .TRUSTED

/-- Method `CapabilitySet.is_untrusted`. -/
def CapabilitySet.is_untrusted (s : CapabilitySet) : Bool :=
  s.has_capability .UNTRUSTED

/-- Method `CapabilitySet.merge`. -/
def CapabilitySet.merge (s other : CapabilitySet) : CapabilitySet :=
  ⟨s.capabilities ++ other.capabilities⟩

/-- Method `CapabilitySet.derive_from(self, *sources)`.  The receiver is
ignored by the Python body (it builds a fresh set), so `_self` is unused.
All source capabilities are inherited; an `(UNTRUSTED, "derived")` label is
added when any source is untrusted. -/
def CapabilitySet.derive_from (_self : CapabilitySet) (sources : List CapabilitySet) :
    CapabilitySet :=
  let inherited := sources.foldl (fun acc source => acc ++ source.capabilities) []
  if sources.any (fun source => source.is_untrusted) then
    ⟨inherited ++ [⟨.UNTRUSTED, "derived"⟩]⟩
  else
    ⟨inherited⟩

/-! ## capabilities.py — policies

A policy's `check(self, operation, tracker, **kwargs)` receives a context
dictionary.  From the interpreter the context is always
`args=…, kwargs=…, arg_capabilities=…`; the test-suite calls policies
directly with flat string entries such as `recipient_value=…`.  `CtxVal`
covers both shapes. -/

/-- Interpreter values (restricted to what the evaluator can produce:
`None`, booleans, integers, strings, and registered-function objects,
the last represented by their registration name). -/
inductive Value where
  | none
  | bool : Bool → Value
  | int : Int → Value
  | str : String → Value
  | funcRef : String → Value
deriving DecidableEq, Repr

/-- A value occurring in a policy `**kwargs` context dictionary. -/
inductive CtxVal where
  | str : String → CtxVal
  | vlist : List Value → CtxVal
  | vdict : List (String × Value) → CtxVal
  | caps : List CapabilitySet → CtxVal
deriving DecidableEq

/-- The `**kwargs` dictionary passed to `SecurityPolicy.check`. -/
abbrev PolicyCtx := List (String × CtxVal)

/-- Python `kwargs.get(key, default)` used as a string (`check` call sites
only ever read string-valued keys this way; a non-string value never occurs
under the keys the policies read). -/
def ctxGetStr (ctx : PolicyCtx) (key dflt : String) : String :=
  match ctx.lookup key with
  | some (.str s) => s
  | _ => dflt

/-- Python `kwargs.get(key)`: `None` when the key is absent. -/
def ctxGet (ctx : PolicyCtx) (key : String) : Option CtxVal :=
  ctx.lookup key

/-- The tracker's variable-name → label-set mapping (`variable_capabilities`). -/
abbrev TrackerMap := String → Option CapabilitySet

/-- Class `EmailSecurityPolicy` state. -/
structure EmailSecurityPolicy where
  trusted_domains : List String
  approved_recipients : List String
  blocked_domains : List String
deriving DecidableEq

/-- `EmailSecurityPolicy.__init__`: the blocked-domain deny list is fixed by
the constructor; passing `[]` for `approved_recipients` models the `None`
default (`approved_recipients or set()`). -/
def EmailSecurityPolicy.init (trusted_domains approved_recipients : List String) :
    EmailSecurityPolicy :=
  ⟨trusted_domains, approved_recipients, ["evil.com", "malicious.com", "attacker.com", "hacker.com"]⟩

/-- Method `EmailSecurityPolicy.check`.  Mirrors the Python body line by
line: the recipient text is read from `kwargs["recipient_value"]` (default
`""`), the recipient identifier from `kwargs["recipient"]` (`if
recipient_var:` is Python truthiness, false for `None` and for `""`), and a
`CapabilitySet` object is always truthy. -/
def EmailSecurityPolicy.check (p : EmailSecurityPolicy) (operation : String)
    (vars : TrackerMap) (ctx : PolicyCtx) : Bool :=
  if operation = "send_email" then
    let recipient := ctxGetStr ctx "recipient_value" ""
    if p.blocked_domains.any (fun bad_domain => pyIn bad_domain (pyLower recipient)) then
      false
    else if p.approved_recipients.contains recipient then
      true
    else
      match ctxGet ctx "recipient" with
      | some (.str recipient_var) =>
        if recipient_var = "" then true
        else
          match vars recipient_var with
          | some recipient_caps =>
            if recipient_caps.is_untrusted then
              p.trusted_domains.any (fun domain => pyIn domain recipient)
            else true
          | none => true
      | _ => true
  else true

/-- Class `FileAccessPolicy` state. -/
structure FileAccessPolicy where
  allowed_paths : List String
deriving DecidableEq

/-- Method `FileAccessPolicy.check` (same truthiness conventions as the
email policy). -/
def FileAccessPolicy.check (p : FileAccessPolicy) (operation : String)
    (vars : TrackerMap) (ctx : PolicyCtx) : Bool :=
  if operation = "read_file" || operation = "write_file" then
    match ctxGet ctx "path" with
    | some (.str path) =>
      if path = "" then true
      else
        match vars path with
        | some path_caps =>
          if path_caps.is_untrusted then
            let path_value := ctxGetStr ctx "path_value" ""
            p.allowed_paths.any (fun allowed => pyIn allowed path_value)
          else true
        | none => true
    | _ => true
  else true

/-- The registered policy objects (the two classes `CaMeLSystem`
registers). -/
inductive SecurityPolicy where
  | email : EmailSecurityPolicy → SecurityPolicy
  | file : FileAccessPolicy → SecurityPolicy
deriving DecidableEq

/-- Dynamic dispatch of `SecurityPolicy.check`. -/
def SecurityPolicy.check : SecurityPolicy → String → TrackerMap → PolicyCtx → Bool
  | .email p, op, vars, ctx => p.check op vars ctx
  | .file p, op, vars, ctx => p.check op vars ctx

/-! ## capabilities.py — the tracker -/

/-- Class `CapabilityTracker`: the variable → labels dictionary plus the
ordered registered policies. -/
structure CapabilityTracker where
  variable_capabilities : TrackerMap
  policies : List SecurityPolicy

/-- Method `CapabilityTracker.assign_capabilities`: dictionary overwrite. -/
def CapabilityTracker.assign_capabilities (t : CapabilityTracker) (variable_name : String)
    (capabilities : CapabilitySet) : CapabilityTracker :=
  { t with variable_capabilities :=
      fun n => if n = variable_name then some capabilities else t.variable_capabilities n }

/-- Method `CapabilityTracker.get_capabilities`: `dict.get`. -/
def CapabilityTracker.get_capabilities (t : CapabilityTracker) (variable_name : String) :
    Option CapabilitySet :=
  t.variable_capabilities variable_name

/-- Method `CapabilityTracker.derive_capabilities`: collect the label sets
of the bound source variables; when at least one is bound, assign the
`derive_from` of those sets to the result variable, otherwise do nothing. -/
def CapabilityTracker.derive_capabilities (t : CapabilityTracker) (result_var : String)
    (source_vars : List String) : CapabilityTracker :=
  let source_caps := source_vars.filterMap t.get_capabilities
  if source_caps = [] then t
  else t.assign_capabilities result_var ((CapabilitySet.mk []).derive_from source_caps)

/-- Method `CapabilityTracker.check_operation`: every registered policy must
allow the operation (the Python loop returns at the first refusal;
`List.all` short-circuits identically). -/
def CapabilityTracker.check_operation (t : CapabilityTracker) (operation : String)
    (ctx : PolicyCtx) : Bool :=
  t.policies.all (fun policy => policy.check operation t.variable_capabilities ctx)

/-! ## mcp_security.py — ToolShadowingDetector -/

/-- Class `ToolShadowingDetector` state: the registered-name set, the
name → source dictionary and the recorded conflicts. -/
structure ToolShadowingDetector where
  registered_tools : List String
  tool_sources : String → Option String
  suspicious_duplicates : List String

/-- Method `ToolShadowingDetector.register_tool`: a re-registration of a
known name from a different source is refused and recorded; otherwise the
name is (re-)registered and its source stored. -/
def ToolShadowingDetector.register_tool (d : ToolShadowingDetector)
    (tool_name source : String) : Bool × ToolShadowingDetector :=
  if d.registered_tools.contains tool_name ∧ d.tool_sources tool_name ≠ some source then
    (false, { d with suspicious_duplicates := d.suspicious_duplicates ++ [tool_name] })
  else
    (true, { d with
      registered_tools :=
        if d.registered_tools.contains tool_name then d.registered_tools
        else d.registered_tools ++ [tool_name],
      tool_sources := fun n => if n = tool_name then some source else d.tool_sources n })

/-- Method `ToolShadowingDetector.get_tool_conflicts` (returns a copy of the
conflict list). -/
def ToolShadowingDetector.get_tool_conflicts (d : ToolShadowingDetector) : List String :=
  d.suspicious_duplicates

/-! ## llm.py — quarantined-LLM output schema validation -/

namespace QuarantinedLLM

/-- The `invalid_chars` literal of `_validate_output`. -/
def invalid_chars : String := "<>:\"/\\|?*"

/-- Method `QuarantinedLLM._validate_output`: strip the output, then check
the `email` / `string` / `filename` schemas; any other schema value
(including `integer`) falls through unchecked and the stripped output is
returned. -/
def validate_output (output schema : String) : Except String String :=
  let output := pyStrip output
  if schema = "email" then
    if !(pyHasChar output '@') || !(pyHasChar output '.') then
      .error ("Output does not match email schema: " ++ output)
    else .ok output
  else if schema = "string" then
    if output.length > 1000 then
      .error ("String output too long: " ++ toString output.length ++ " characters")
    else .ok output
  else if schema = "filename" then
    if invalid_chars.data.any (fun char => pyHasChar output char) then
      .error ("Output contains invalid filename characters: " ++ output)
    else .ok output
  else .ok output

end QuarantinedLLM

/-- Spec-side definition, for comparison with `QuarantinedLLM.validate_output`
only: the specification's `integer` schema, "parseable as a signed decimal
integer" (an optional sign followed by at least one digit). -/
def spec_integer_parseable (s : String) : Bool :=
  let digits := match s.data with
    | '-' :: rest => rest
    | '+' :: rest => rest
    | l => l
  !digits.isEmpty && digits.all Char.isDigit

/-! ## interpreter.py — the restricted AST

One constructor per Python `ast` node class the validator can meet.
Operator and context classes (`Add`, `Load`, `Eq`, …) are carried as
parameters of their owning node: every such class is in `ALLOWED_NODES`,
so visiting them never fails and folding them into the parent preserves the
validator's behaviour.  A `FunctionDef` carries its mandatory
`ast.arguments` child (the `argumentsNode` constructor) followed by its
body, in `generic_visit` field order; the `arguments` class is in neither
`ALLOWED_NODES` nor `FORBIDDEN_CONSTRUCTS`, so the validator always raises
on it before reaching the body, and its own `arg` children — never
visited — are omitted.  Node payloads the interpreter never reads (import
names, decorator lists, …) are omitted. -/

/-- Binary operator classes `Add`, `Sub`, `Mult`, `Div`. -/
inductive BinOpKind where
  | add | sub | mult | div
deriving DecidableEq, Repr

/-- Boolean operator classes `And`, `Or`. -/
inductive BoolOpKind where
  | and | or
deriving DecidableEq, Repr

/-- Unary operator classes `USub`, `UAdd`, `Not`. -/
inductive UnaryOpKind where
  | usub | uadd | not
deriving DecidableEq, Repr

/-- Comparison operator classes `Eq`, `NotEq`, `Lt`, `LtE`, `Gt`, `GtE`
(the only ones `ALLOWED_NODES` admits, so `_execute_Compare`'s
unsupported-comparison branch is unreachable). -/
inductive CmpOp where
  | eq | notEq | lt | ltE | gt | gtE
deriving DecidableEq, Repr

/-- The Python abstract syntax tree restricted to the node classes named in
`ALLOWED_NODES` and `FORBIDDEN_CONSTRUCTS`. -/
inductive Ast where
  | module : List Ast → Ast
  | exprStmt : Ast → Ast
  | assign : List Ast → Ast → Ast
  | name : String → Ast
  | constant : Value → Ast
  | call : Ast → List Ast → List (String × Ast) → Ast
  | ret : Option Ast → Ast
  | ifStmt : Ast → List Ast → List Ast → Ast
  | compare : Ast → List (CmpOp × Ast) → Ast
  | binOp : BinOpKind → Ast → Ast → Ast
  | boolOp : BoolOpKind → List Ast → Ast
  | unaryOp : UnaryOpKind → Ast → Ast
  | listDisp : List Ast → Ast
  | tupleDisp : List Ast → Ast
  | dictDisp : List (Ast × Ast) → Ast
  | subscript : Ast → Ast → Ast
  | sliceNode : Option Ast → Option Ast → Option Ast → Ast
  | attributeAccess : Ast → String → Ast
  | functionDef : Ast → List Ast → Ast
  | argumentsNode : Ast
  | importStmt : Ast
  | importFrom : Ast
  | globalStmt : Ast
  | nonlocalStmt : Ast
  | classDef : List Ast → Ast
  | asyncFunctionDef : List Ast → Ast
  | withStmt : List Ast → Ast
  | asyncWith : List Ast → Ast
  | forStmt : List Ast → Ast
  | asyncFor : List Ast → Ast
  | whileStmt : List Ast → Ast
  | tryStmt : List Ast → Ast
  | lambdaExpr : Ast → Ast
  | yieldExpr : Option Ast → Ast
  | yieldFrom : Ast → Ast
  | awaitExpr : Ast → Ast

/-- Python class name of a node, as `type(node).__name__` renders it. -/
def Ast.kindName : Ast → String
  | .module _ => "Module"
  | .exprStmt _ => "Expr"
  | .assign _ _ => "Assign"
  | .name _ => "Name"
  | .constant _ => "Constant"
  | .call _ _ _ => "Call"
  | .ret _ => "Return"
  | .ifStmt _ _ _ => "If"
  | .compare _ _ => "Compare"
  | .binOp _ _ _ => "BinOp"
  | .boolOp _ _ => "BoolOp"
  | .unaryOp _ _ => "UnaryOp"
  | .listDisp _ => "List"
  | .tupleDisp _ => "Tuple"
  | .dictDisp _ => "Dict"
  | .subscript _ _ => "Subscript"
  | .sliceNode _ _ _ => "Slice"
  | .attributeAccess _ _ => "Attribute"
  | .functionDef _ _ => "FunctionDef"
  | .argumentsNode => "arguments"
  | .importStmt => "Import"
  | .importFrom => "ImportFrom"
  | .globalStmt => "Global"
  | .nonlocalStmt => "Nonlocal"
  | .classDef _ => "ClassDef"
  | .asyncFunctionDef _ => "AsyncFunctionDef"
  | .withStmt _ => "With"
  | .asyncWith _ => "AsyncWith"
  | .forStmt _ => "For"
  | .asyncFor _ => "AsyncFor"
  | .whileStmt _ => "While"
  | .tryStmt _ => "Try"
  | .lambdaExpr _ => "Lambda"
  | .yieldExpr _ => "Yield"
  | .yieldFrom _ => "YieldFrom"
  | .awaitExpr _ => "Await"

/-- The class names of `RestrictedASTVisitor.FORBIDDEN_CONSTRUCTS`. -/
def FORBIDDEN_CONSTRUCTS : List String :=
  ["Import", "ImportFrom", "Global", "Nonlocal", "ClassDef", "AsyncFunctionDef", "With",
   "AsyncWith", "For", "AsyncFor", "While", "Try", "Lambda", "Yield", "YieldFrom", "Await"]

/-- Whether the node's class is in `FORBIDDEN_CONSTRUCTS`. -/
def Ast.isForbiddenKind (a : Ast) : Bool :=
  FORBIDDEN_CONSTRUCTS.contains a.kindName

/- Whether any node of the tree belongs to `FORBIDDEN_CONSTRUCTS` (the
property "the program contains a forbidden construct"). -/
mutual

/-- True when some node of the tree is a forbidden construct. -/
def Ast.containsForbidden : Ast → Bool
  | .module stmts => listContainsForbidden stmts
  | .exprStmt e => e.containsForbidden
  | .assign targets value => listContainsForbidden targets || value.containsForbidden
  | .name _ => false
  | .constant _ => false
  | .call f args keywords =>
      f.containsForbidden || listContainsForbidden args || kwContainsForbidden keywords
  | .ret value => optContainsForbidden value
  | .ifStmt test body orelse =>
      test.containsForbidden || listContainsForbidden body || listContainsForbidden orelse
  | .compare left rest => left.containsForbidden || cmpContainsForbidden rest
  | .binOp _ l r => l.containsForbidden || r.containsForbidden
  | .boolOp _ values => listContainsForbidden values
  | .unaryOp _ operand => operand.containsForbidden
  | .listDisp elts => listContainsForbidden elts
  | .tupleDisp elts => listContainsForbidden elts
  | .dictDisp pairs => pairContainsForbidden pairs
  | .subscript value idx => value.containsForbidden || idx.containsForbidden
  | .sliceNode lower upper step =>
      optContainsForbidden lower || optContainsForbidden upper || optContainsForbidden step
  | .attributeAccess value _ => value.containsForbidden
  | .functionDef args body => args.containsForbidden || listContainsForbidden body
  | .argumentsNode => false
  | _ => true

def listContainsForbidden : List Ast → Bool
  | [] => false
  | a :: rest => a.containsForbidden || listContainsForbidden rest

def kwContainsForbidden : List (String × Ast) → Bool
  | [] => false
  | (_, a) :: rest => a.containsForbidden || kwContainsForbidden rest

def cmpContainsForbidden : List (CmpOp × Ast) → Bool
  | [] => false
  | (_, a) :: rest => a.containsForbidden || cmpContainsForbidden rest

def pairContainsForbidden : List (Ast × Ast) → Bool
  | [] => false
  | (k, v) :: rest => k.containsForbidden || v.containsForbidden || pairContainsForbidden rest

def optContainsForbidden : Option Ast → Bool
  | Option.none => false
  | some a => a.containsForbidden

end

/- Error message of the first node the validator rejects in depth-first
visit order, when one exists: forbidden constructs report
"Forbidden construct: <X>", and an `arguments` node — in neither
`ALLOWED_NODES` nor `FORBIDDEN_CONSTRUCTS` — reports
"Unknown/disallowed construct: arguments".  Children are combined with
`Option.or` in the same field order `generic_visit` uses, and a rejected
node reports itself before its children are considered, exactly as
`visit` raises. -/
mutual

/-- Error message of the first rejected node in visit order. -/
def Ast.firstRejection : Ast → Option String
  | .module stmts => listFirstRejection stmts
  | .exprStmt e => e.firstRejection
  | .assign targets value => (listFirstRejection targets).or value.firstRejection
  | .name _ => Option.none
  | .constant _ => Option.none
  | .call f args keywords =>
      (f.firstRejection.or (listFirstRejection args)).or (kwFirstRejection keywords)
  | .ret value => optFirstRejection value
  | .ifStmt test body orelse =>
      (test.firstRejection.or (listFirstRejection body)).or (listFirstRejection orelse)
  | .compare left rest => left.firstRejection.or (cmpFirstRejection rest)
  | .binOp _ l r => l.firstRejection.or r.firstRejection
  | .boolOp _ values => listFirstRejection values
  | .unaryOp _ operand => operand.firstRejection
  | .listDisp elts => listFirstRejection elts
  | .tupleDisp elts => listFirstRejection elts
  | .dictDisp pairs => pairFirstRejection pairs
  | .subscript value idx => value.firstRejection.or idx.firstRejection
  | .sliceNode lower upper step =>
      ((optFirstRejection lower).or (optFirstRejection upper)).or (optFirstRejection step)
  | .attributeAccess value _ => value.firstRejection
  | .functionDef args body => (args.firstRejection).or (listFirstRejection body)
  | .argumentsNode => some "Unknown/disallowed construct: arguments"
  | .importStmt => some "Forbidden construct: Import"
  | .importFrom => some "Forbidden construct: ImportFrom"
  | .globalStmt => some "Forbidden construct: Global"
  | .nonlocalStmt => some "Forbidden construct: Nonlocal"
  | .classDef _ => some "Forbidden construct: ClassDef"
  | .asyncFunctionDef _ => some "Forbidden construct: AsyncFunctionDef"
  | .withStmt _ => some "Forbidden construct: With"
  | .asyncWith _ => some "Forbidden construct: AsyncWith"
  | .forStmt _ => some "Forbidden construct: For"
  | .asyncFor _ => some "Forbidden construct: AsyncFor"
  | .whileStmt _ => some "Forbidden construct: While"
  | .tryStmt _ => some "Forbidden construct: Try"
  | .lambdaExpr _ => some "Forbidden construct: Lambda"
  | .yieldExpr _ => some "Forbidden construct: Yield"
  | .yieldFrom _ => some "Forbidden construct: YieldFrom"
  | .awaitExpr _ => some "Forbidden construct: Await"

def listFirstRejection : List Ast → Option String
  | [] => Option.none
  | a :: rest => a.firstRejection.or (listFirstRejection rest)

def kwFirstRejection : List (String × Ast) → Option String
  | [] => Option.none
  | (_, a) :: rest => a.firstRejection.or (kwFirstRejection rest)

def cmpFirstRejection : List (CmpOp × Ast) → Option String
  | [] => Option.none
  | (_, a) :: rest => a.firstRejection.or (cmpFirstRejection rest)

def pairFirstRejection : List (Ast × Ast) → Option String
  | [] => Option.none
  | (k, v) :: rest =>
      (k.firstRejection.or v.firstRejection).or (pairFirstRejection rest)

def optFirstRejection : Option Ast → Option String
  | Option.none => Option.none
  | some a => a.firstRejection

end

/- Whether any node of the tree is an `Assign` statement.  Python's grammar
keeps assignment out of expression position, so the right-hand side of any
parsed assignment satisfies `containsAssign = false`; the predicate
delimits that expression fragment inside the embedded node universe. -/
mutual

/-- True when some node of the tree is an assignment statement. -/
def Ast.containsAssign : Ast → Bool
  | .module stmts => listContainsAssign stmts
  | .exprStmt e => e.containsAssign
  | .assign _ _ => true
  | .name _ => false
  | .constant _ => false
  | .call f args keywords =>
      f.containsAssign || listContainsAssign args || kwContainsAssign keywords
  | .ret value => optContainsAssign value
  | .ifStmt test body orelse =>
      test.containsAssign || listContainsAssign body || listContainsAssign orelse
  | .compare left rest => left.containsAssign || cmpContainsAssign rest
  | .binOp _ l r => l.containsAssign || r.containsAssign
  | .boolOp _ values => listContainsAssign values
  | .unaryOp _ operand => operand.containsAssign
  | .listDisp elts => listContainsAssign elts
  | .tupleDisp elts => listContainsAssign elts
  | .dictDisp pairs => pairContainsAssign pairs
  | .subscript value idx => value.containsAssign || idx.containsAssign
  | .sliceNode lower upper step =>
      optContainsAssign lower || optContainsAssign upper || optContainsAssign step
  | .attributeAccess value _ => value.containsAssign
  | .functionDef args body => args.containsAssign || listContainsAssign body
  | .argumentsNode => false
  | .classDef body => listContainsAssign body
  | .asyncFunctionDef body => listContainsAssign body
  | .withStmt body => listContainsAssign body
  | .asyncWith body => listContainsAssign body
  | .forStmt body => listContainsAssign body
  | .asyncFor body => listContainsAssign body
  | .whileStmt body => listContainsAssign body
  | .tryStmt body => listContainsAssign body
  | .lambdaExpr body => body.containsAssign
  | .yieldExpr value => optContainsAssign value
  | .yieldFrom value => value.containsAssign
  | .awaitExpr value => value.containsAssign
  | .importStmt => false
  | .importFrom => false
  | .globalStmt => false
  | .nonlocalStmt => false

def listContainsAssign : List Ast → Bool
  | [] => false
  | a :: rest => a.containsAssign || listContainsAssign rest

def kwContainsAssign : List (String × Ast) → Bool
  | [] => false
  | (_, a) :: rest => a.containsAssign || kwContainsAssign rest

def cmpContainsAssign : List (CmpOp × Ast) → Bool
  | [] => false
  | (_, a) :: rest => a.containsAssign || cmpContainsAssign rest

def pairContainsAssign : List (Ast × Ast) → Bool
  | [] => false
  | (k, v) :: rest => k.containsAssign || v.containsAssign || pairContainsAssign rest

def optContainsAssign : Option Ast → Bool
  | Option.none => false
  | some a => a.containsAssign

end

/-! ## interpreter.py — RestrictedASTVisitor

`visit` checks the node's class against `FORBIDDEN_CONSTRUCTS` and then
against `ALLOWED_NODES` before recursing (`generic_visit`) into the
children in field order.  Each forbidden constructor errors directly with
its class name; the only constructor of this embedding outside both sets
is `argumentsNode`, which errors with the "Unknown/disallowed construct"
message. -/

namespace RestrictedASTVisitor

mutual

def visit : Ast → Except String Unit
  | .module stmts => visitList stmts
  | .exprStmt e => visit e
  | .assign targets value => do visitList targets; visit value
  | .name _ => .ok ()
  | .constant _ => .ok ()
  | .call f args keywords => do visit f; visitList args; visitKeywords keywords
  | .ret value => visitOpt value
  | .ifStmt test body orelse => do visit test; visitList body; visitList orelse
  | .compare left rest => do visit left; visitCmps rest
  | .binOp _ l r => do visit l; visit r
  | .boolOp _ values => visitList values
  | .unaryOp _ operand => visit operand
  | .listDisp elts => visitList elts
  | .tupleDisp elts => visitList elts
  | .dictDisp pairs => visitPairs pairs
  | .subscript value idx => do visit value; visit idx
  | .sliceNode lower upper step => do visitOpt lower; visitOpt upper; visitOpt step
  | .attributeAccess value _ => visit value
  | .functionDef args body => do visit args; visitList body
  | .argumentsNode => .error "Unknown/disallowed construct: arguments"
  | .importStmt => .error "Forbidden construct: Import"
  | .importFrom => .error "Forbidden construct: ImportFrom"
  | .globalStmt => .error "Forbidden construct: Global"
  | .nonlocalStmt => .error "Forbidden construct: Nonlocal"
  | .classDef _ => .error "Forbidden construct: ClassDef"
  | .asyncFunctionDef _ => .error "Forbidden construct: AsyncFunctionDef"
  | .withStmt _ => .error "Forbidden construct: With"
  | .asyncWith _ => .error "Forbidden construct: AsyncWith"
  | .forStmt _ => .error "Forbidden construct: For"
  | .asyncFor _ => .error "Forbidden construct: AsyncFor"
  | .whileStmt _ => .error "Forbidden construct: While"
  | .tryStmt _ => .error "Forbidden construct: Try"
  | .lambdaExpr _ => .error "Forbidden construct: Lambda"
  | .yieldExpr _ => .error "Forbidden construct: Yield"
  | .yieldFrom _ => .error "Forbidden construct: YieldFrom"
  | .awaitExpr _ => .error "Forbidden construct: Await"

def visitList : List Ast → Except String Unit
  | [] => .ok ()
  | a :: rest => do visit a; visitList rest

def visitKeywords : List (String × Ast) → Except String Unit
  | [] => .ok ()
  | (_, a) :: rest => do visit a; visitKeywords rest

def visitCmps : List (CmpOp × Ast) → Except String Unit
  | [] => .ok ()
  | (_, a) :: rest => do visit a; visitCmps rest

def visitPairs : List (Ast × Ast) → Except String Unit
  | [] => .ok ()
  | (k, v) :: rest => do visit k; visit v; visitPairs rest

def visitOpt : Option Ast → Except String Unit
  | Option.none => .ok ()
  | some a => visit a

end

end RestrictedASTVisitor

/-! ## interpreter.py — CaMeLInterpreter -/

/-- Python truthiness of an interpreter value (`if test_result:`). -/
def Value.truthy : Value → Bool
  | .none => false
  | .bool b => b
  | .int n => n != 0
  | .str s => s != ""
  | .funcRef _ => true

/-- Python `==` on the representable values (`bool` is an `int` subclass,
so `True == 1`; values of unrelated types compare unequal; function objects
are identical exactly when they are the same registration). -/
def Value.eqb : Value → Value → Bool
  | .none, .none => true
  | .bool a, .bool b => a == b
  | .int a, .int b => a == b
  | .str a, .str b => a == b
  | .bool a, .int b => (if a then (1 : Int) else 0) == b
  | .int a, .bool b => a == (if b then (1 : Int) else 0)
  | .funcRef a, .funcRef b => a == b
  | _, _ => false

/-- Numeric view of a value (`bool` coerces to `int`), for the ordered
comparisons. -/
def Value.asNum : Value → Option Int
  | .int n => some n
  | .bool b => some (if b then 1 else 0)
  | _ => Option.none

/-- Ordered comparison on integers. -/
def cmpInt : CmpOp → Int → Int → Bool
  | .eq, a, b => a == b
  | .notEq, a, b => a != b
  | .lt, a, b => decide (a < b)
  | .ltE, a, b => decide (a ≤ b)
  | .gt, a, b => decide (b < a)
  | .gtE, a, b => decide (b ≤ a)

/-- Ordered comparison on strings (lexicographic, as in Python). -/
def cmpStr : CmpOp → String → String → Bool
  | .eq, a, b => a == b
  | .notEq, a, b => a != b
  | .lt, a, b => pyCharsLt a.data b.data
  | .ltE, a, b => !pyCharsLt b.data a.data
  | .gt, a, b => pyCharsLt b.data a.data
  | .gtE, a, b => !pyCharsLt a.data b.data

/-- One step of `_execute_Compare`: `left OP right`.  Equality works on any
values; the ordered operators are defined for numbers and for strings and
raise otherwise (CPython's `TypeError`, whose message text is not
modelled). -/
def cmpValues (op : CmpOp) (left right : Value) : Except String Bool :=
  match op with
  | .eq => .ok (left.eqb right)
  | .notEq => .ok (!left.eqb right)
  | _ =>
    match left.asNum, right.asNum with
    | some a, some b => .ok (cmpInt op a b)
    | _, _ =>
      match left, right with
      | .str a, .str b => .ok (cmpStr op a b)
      | _, _ => .error "unsupported operand types for comparison"

/-- A registered tool function: positional values and keyword values to a
result.  The Python callables are opaque to the interpreter; their only
interpreter-visible effect is the returned value, and each invocation is
recorded in the `calls` journal of the state. -/
abbrev FuncImpl := List Value → List (String × Value) → Value

/-- The mutable state of a `CaMeLInterpreter` object: the capability
tracker, the `variables` and `functions` dictionaries, plus the journal of
performed tool invocations (name, positional values, keyword values) — the
observable side effects of `func(*args, **kwargs)`. -/
structure InterpState where
  tracker : CapabilityTracker
  vars : String → Option Value
  functions : String → Option FuncImpl
  calls : List (String × List Value × List (String × Value))

/-- Method `CaMeLInterpreter._get_function_name`. -/
def getFunctionName : Ast → Except String String
  | .name id => .ok id
  | .attributeAccess value attr =>
    match getFunctionName value with
    | .ok base => .ok (base ++ "." ++ attr)
    | .error e => .error e
  | _ => .error "Complex function calls not supported"

/- Method `CaMeLInterpreter._execute_ast` and the `_execute_*` handlers.
Dispatch is `getattr(self, f"_execute_{type(node).__name__}")`; handlers
exist exactly for Module, Expr, Call, Assign, Name, Constant, Str, Return,
If and Compare (`Str` nodes are not produced by the modern parser and have
no constructor here), so every other node class falls to the
"No handler" error.  Errors thread the state reached so far, which is the
mutation the Python object retains when an exception unwinds. -/
mutual

/-- Method `_execute_ast`: dispatch on the node class. -/
def execAst (s : InterpState) : Ast → InterpState × Except String Value
  | .module stmts => execStmts s Value.none stmts
  | .exprStmt e => execAst s e
  | .call f args keywords =>
    match getFunctionName f with
    | .error e => (s, .error e)
    | .ok func_name =>
      match s.functions func_name with
      | Option.none => (s, .error ("Unknown function: " ++ func_name))
      | some func =>
        match execArgs s args with
        | (s1, .error e) => (s1, .error e)
        | (s1, .ok argVals) =>
          match execKeywords s1 keywords with
          | (s2, .error e) => (s2, .error e)
          | (s2, .ok kwVals) =>
            let arg_capabilities := args.filterMap (fun arg =>
              match arg with
              | .name id => s2.tracker.get_capabilities id
              | _ => Option.none)
            let ctx : PolicyCtx :=
              [("args", .vlist argVals), ("kwargs", .vdict kwVals),
               ("arg_capabilities", .caps arg_capabilities)]
            if s2.tracker.check_operation func_name ctx then
              ({ s2 with calls := s2.calls ++ [(func_name, argVals, kwVals)] },
               .ok (func argVals kwVals))
            else
              (s2, .error ("Operation " ++ func_name ++ " blocked by security policy"))
  | .assign targets value =>
    match targets with
    | [.name var_name] =>
      match execAst s value with
      | (s1, .error e) => (s1, .error e)
      | (s1, .ok v) =>
        let s2 := { s1 with
          vars := fun n => if n = var_name then some v else s1.vars n }
        let s3 :=
          match value with
          | .call _ cargs _ =>
            let source_vars := cargs.filterMap (fun arg =>
              match arg with
              | .name id => some id
              | _ => Option.none)
            if source_vars = [] then s2
            else { s2 with tracker := s2.tracker.derive_capabilities var_name source_vars }
          | .name src =>
            match s2.tracker.get_capabilities src with
            | some source_caps =>
              { s2 with tracker := s2.tracker.assign_capabilities var_name source_caps }
            | Option.none => s2
          | _ => s2
        (s3, .ok Value.none)
    | [_] => (s, .error "Only simple variable assignment supported")
    | _ => (s, .error "Multiple assignment targets not supported")
  | .name id =>
    match s.vars id with
    | some v => (s, .ok v)
    | Option.none =>
      match s.functions id with
      | some _ => (s, .ok (Value.funcRef id))
      | Option.none => (s, .error ("Undefined variable: " ++ id))
  | .constant v => (s, .ok v)
  | .ret (some e) => execAst s e
  | .ret Option.none => (s, .ok Value.none)
  | .ifStmt test body orelse =>
    match execAst s test with
    | (s1, .error e) => (s1, .error e)
    | (s1, .ok t) =>
      if t.truthy then execStmts s1 Value.none body
      else if orelse.isEmpty then (s1, .ok Value.none)
      else execStmts s1 Value.none orelse
  | .compare left rest =>
    match execAst s left with
    | (s1, .error e) => (s1, .error e)
    | (s1, .ok l) => execCmps s1 l rest
  | a => (s, .error ("No handler for " ++ a.kindName))

/-- Statement sequence of `_execute_Module` / `_execute_If`: `result` holds
the last statement's value. -/
def execStmts (s : InterpState) (result : Value) : List Ast → InterpState × Except String Value
  | [] => (s, .ok result)
  | a :: rest =>
    match execAst s a with
    | (s1, .ok v) => execStmts s1 v rest
    | (s1, .error e) => (s1, .error e)

/-- Left-to-right evaluation of the positional arguments of a call. -/
def execArgs (s : InterpState) : List Ast → InterpState × Except String (List Value)
  | [] => (s, .ok [])
  | a :: rest =>
    match execAst s a with
    | (s1, .error e) => (s1, .error e)
    | (s1, .ok v) =>
      match execArgs s1 rest with
      | (s2, .error e) => (s2, .error e)
      | (s2, .ok vs) => (s2, .ok (v :: vs))

/-- Left-to-right evaluation of the keyword arguments of a call. -/
def execKeywords (s : InterpState) :
    List (String × Ast) → InterpState × Except String (List (String × Value))
  | [] => (s, .ok [])
  | (k, a) :: rest =>
    match execAst s a with
    | (s1, .error e) => (s1, .error e)
    | (s1, .ok v) =>
      match execKeywords s1 rest with
      | (s2, .error e) => (s2, .error e)
      | (s2, .ok vs) => (s2, .ok ((k, v) :: vs))

/-- The chained-comparison loop of `_execute_Compare`. -/
def execCmps (s : InterpState) (left : Value) :
    List (CmpOp × Ast) → InterpState × Except String Value
  | [] => (s, .ok (.bool true))
  | (op, comparator) :: rest =>
    match execAst s comparator with
    | (s1, .error e) => (s1, .error e)
    | (s1, .ok right) =>
      match cmpValues op left right with
      | .error e => (s1, .error e)
      | .ok b => if b then execCmps s1 right rest else (s1, .ok (.bool false))

end

/-- Method `CaMeLInterpreter.execute` on an already-parsed tree: validate
the whole AST, then evaluate; any raised error is re-wrapped with the
"Error executing CaMeL code" prefix (the `SyntaxError` branch belongs to
`ast.parse`, which is outside the embedding). -/
def CaMeLInterpreter.execute (s : InterpState) (tree : Ast) :
    InterpState × Except String Value :=
  match RestrictedASTVisitor.visit tree with
  | .error e => (s, .error ("Error executing CaMeL code: " ++ e))
  | .ok _ =>
    match execAst s tree with
    | (s1, .ok v) => (s1, .ok v)
    | (s1, .error e) => (s1, .error ("Error executing CaMeL code: " ++ e))

/-! ## Concrete fixtures

The states below reproduce `CaMeLSystem._setup_security_policies` (the
email policy over `{"company.com", "trusted-partner.com"}` and the file
policy over `{"/documents/", "/shared/", "/public/"}`) with a registered
`send_email` tool (`EmailTool.send_email` returns `True`) and the
`query_quarantined_llm` entry point. -/

/-- The `EmailSecurityPolicy` built by `CaMeLSystem._setup_security_policies`. -/
def emailPolicyDefault : EmailSecurityPolicy :=
  EmailSecurityPolicy.init ["company.com", "trusted-partner.com"] []

/-- The `FileAccessPolicy` built by `CaMeLSystem._setup_security_policies`. -/
def filePolicyDefault : FileAccessPolicy :=
  ⟨["/documents/", "/shared/", "/public/"]⟩

/-- A fresh tracker carrying the two default policies. -/
def systemTracker : CapabilityTracker :=
  ⟨fun _ => Option.none, [.email emailPolicyDefault, .file filePolicyDefault]⟩

/-- `EmailTool.send_email`: always returns `True`. -/
def send_email_impl : FuncImpl := fun _ _ => .bool true

/-- The label set `set_untrusted_data` attaches: `(UNTRUSTED, "external")`. -/
def untrustedExternal : CapabilitySet := ⟨[⟨.UNTRUSTED, "external"⟩]⟩

/-- Interpreter state with the default policies and `send_email` registered. -/
def sendEmailState : InterpState where
  tracker := systemTracker
  vars := fun _ => Option.none
  functions := fun n => if n = "send_email" then some send_email_impl else Option.none
  calls := []

/-- `sendEmailState` after `set_untrusted_data("email", "attacker@evil.com")`:
the identifier `email` is bound to the attacker address and labelled
UNTRUSTED. -/
def sendEmailStateU : InterpState where
  tracker :=
    { systemTracker with variable_capabilities :=
        fun n => if n = "email" then some untrustedExternal else Option.none }
  vars := fun n => if n = "email" then some (.str "attacker@evil.com") else Option.none
  functions := fun n => if n = "send_email" then some send_email_impl else Option.none
  calls := []

/-- The spec's scenario-4 program
`send_email(recipient="attacker@evil.com", subject="x", body="y")`. -/
def progDenyConst : Ast :=
  .module [.exprStmt (.call (.name "send_email") []
    [("recipient", .constant (.str "attacker@evil.com")),
     ("subject", .constant (.str "x")),
     ("body", .constant (.str "y"))])]

/-- The program `send_email(email, "x", "y")` whose recipient argument names
the UNTRUSTED identifier `email`. -/
def progDenyUntrusted : Ast :=
  .module [.exprStmt (.call (.name "send_email")
    [.name "email", .constant (.str "x"), .constant (.str "y")] [])]

/-- State for the `query_quarantined_llm` claims: the default policies plus
the registered `CaMeLSystem._query_quarantined_llm` entry point, whose
returned content (the Q-LLM response) is the abstract function `impl`. -/
def qllmState (impl : FuncImpl) : InterpState where
  tracker := systemTracker
  vars := fun _ => Option.none
  functions := fun n => if n = "query_quarantined_llm" then some impl else Option.none
  calls := []

/-- The program
`x = query_quarantined_llm("Extract Bob's email address", "<payload>", "email")`
with all three arguments constant literals. -/
def progQllmConst : Ast :=
  .module [.assign [.name "x"] (.call (.name "query_quarantined_llm")
    [.constant (.str "Extract Bob's email address"),
     .constant (.str "<payload>"),
     .constant (.str "email")] [])]

/-- A tracker with no policies whose only binding labels `target`
UNTRUSTED. -/
def trackerBoundTarget : CapabilityTracker :=
  ⟨fun n => if n = "target" then some untrustedExternal else Option.none, []⟩

/-- A single-label trusted set `(TRUSTED, "user")`, as `set_trusted_data`
attaches. -/
def trustedUser : CapabilitySet := ⟨[⟨.TRUSTED, "user"⟩]⟩

/-- A detector with no registrations. -/
def emptyDetector : ToolShadowingDetector := ⟨[], fun _ => Option.none, []⟩

/-- State for the assignment frame claims: `x` carries a stale UNTRUSTED
label and the string value it was previously bound to, `y` is bound in the
value environment but unlabelled, and `send_email` is registered. -/
def stateOldLabel : InterpState where
  tracker :=
    { systemTracker with variable_capabilities :=
        fun n => if n = "x" then some untrustedExternal else Option.none }
  vars := fun n =>
    if n = "x" then some (.str "attacker@evil.com")
    else if n = "y" then some (.int 7) else Option.none
  functions := fun n => if n = "send_email" then some send_email_impl else Option.none
  calls := []

/-! ## Helper lemmas -/

/-- Membership in the capability union `derive_from` folds up. -/
theorem mem_foldl_append (sources : List CapabilitySet) (init : List Capability)
    (c : Capability) :
    c ∈ sources.foldl (fun acc source => acc ++ source.capabilities) init ↔
      c ∈ init ∨ ∃ src ∈ sources, c ∈ src.capabilities := by
  induction sources generalizing init with
  | nil => simp
  | cons hd tl ih =>
    simp only [List.foldl_cons, ih, List.mem_append, List.mem_cons]
    constructor
    · rintro (⟨h | h⟩ | ⟨src, hsrc, hc⟩)
      · exact Or.inl h
      · exact Or.inr ⟨hd, Or.inl rfl, h⟩
      · exact Or.inr ⟨src, Or.inr hsrc, hc⟩
    · rintro (h | ⟨src, (rfl | hsrc), hc⟩)
      · exact Or.inl (Or.inl h)
      · exact Or.inl (Or.inr hc)
      · exact Or.inr ⟨src, hsrc, hc⟩

/-- When every source variable is unbound, `derive_capabilities` is the
identity on the tracker. -/
theorem derive_capabilities_unbound (t : CapabilityTracker) (result_var : String)
    (source_vars : List String)
    (h : ∀ v ∈ source_vars, t.get_capabilities v = Option.none) :
    t.derive_capabilities result_var source_vars = t := by
  unfold CapabilityTracker.derive_capabilities
  have hnil : source_vars.filterMap t.get_capabilities = [] :=
    List.filterMap_eq_nil_iff.mpr h
  simp [hnil]

/-- If some source set is untrusted, the derived set is untrusted. -/
theorem derive_from_untrusted_of_source (s0 : CapabilitySet) (sources : List CapabilitySet)
    (h : ∃ src ∈ sources, src.is_untrusted = true) :
    (s0.derive_from sources).is_untrusted = true := by
  obtain ⟨src, hmem, hu⟩ := h
  have hany : (sources.any fun source => source.is_untrusted) = true :=
    List.any_eq_true.mpr ⟨src, hmem, hu⟩
  unfold CapabilitySet.derive_from
  rw [if_pos hany]
  simp [CapabilitySet.is_untrusted, CapabilitySet.has_capability, List.any_append]

/-! ## Claim C3 -/

/-- Claim C3: `derive_from` never drops UNTRUSTED — if any source set is
untrusted then so is the derived set — and consequently a tracker variable
whose labels are derived (via `derive_capabilities`) from an
UNTRUSTED-labelled bound source variable is labelled and untrusted after
the derivation. -/
theorem derive_taint_monotone :
    (∀ (s0 : CapabilitySet) (sources : List CapabilitySet),
        (∃ src ∈ sources, src.is_untrusted = true) →
        (s0.derive_from sources).is_untrusted = true) ∧
    (∀ (t : CapabilityTracker) (x : String) (source_vars : List String),
        (∃ v ∈ source_vars, ∃ caps, t.get_capabilities v = some caps ∧
          caps.is_untrusted = true) →
        ∃ d, (t.derive_capabilities x source_vars).get_capabilities x = some d ∧
          d.is_untrusted = true) := by
  constructor
  · exact derive_from_untrusted_of_source
  · rintro t x source_vars ⟨v, hv, caps, hget, hu⟩
    have hmem : caps ∈ source_vars.filterMap t.get_capabilities :=
      List.mem_filterMap.mpr ⟨v, hv, hget⟩
    have hne : ¬(source_vars.filterMap t.get_capabilities = []) := by
      intro h0
      rw [h0] at hmem
      exact absurd hmem (List.not_mem_nil caps)
    refine ⟨(CapabilitySet.mk []).derive_from (source_vars.filterMap t.get_capabilities),
      ?_, ?_⟩
    · simp [CapabilityTracker.derive_capabilities, hne,
        CapabilityTracker.assign_capabilities, CapabilityTracker.get_capabilities]
    · exact derive_from_untrusted_of_source _ _ ⟨caps, hmem, hu⟩

/-- Witness for C3 at concrete inputs: a singleton untrusted source set, and
a tracker binding `src` to `(UNTRUSTED, "external")`. -/
theorem derive_taint_monotone_witness :
    ((CapabilitySet.mk []).derive_from [untrustedExternal]).is_untrusted = true ∧
    ∃ d, ((CapabilityTracker.mk
        (fun n => if n = "src" then some untrustedExternal else Option.none)
        []).derive_capabilities "x" ["src"]).get_capabilities "x" = some d ∧
      d.is_untrusted = true :=
  ⟨derive_taint_monotone.1 (CapabilitySet.mk []) [untrustedExternal]
      ⟨untrustedExternal, by decide, by decide⟩,
   derive_taint_monotone.2 _ "x" ["src"]
      ⟨"src", by decide, untrustedExternal, by decide, by decide⟩⟩

/-! ## Claim C4 -/

/-- Counterexample for C4 as stated: deriving from a source labelled
`(TRUSTED, "user")` yields a set that does contain that inherited TRUSTED
capability (`derive_from` unions all source capabilities). -/
theorem derive_from_inherits_trusted_cex :
    Capability.mk .TRUSTED "user" ∈
      ((CapabilitySet.mk []).derive_from [trustedUser]).capabilities ∧
    ((CapabilitySet.mk []).derive_from [trustedUser]).is_trusted = true := by
  decide

/-- Claim C4, amended: the set returned by `derive_from` consists of
exactly the capabilities of the sources plus, when some source is
untrusted, the single new label `(UNTRUSTED, "derived")`.  In particular
TRUSTED capabilities of the sources are inherited, but `derive_from` never
introduces a TRUSTED capability that no source carried. -/
theorem derive_from_mem_spec (s0 : CapabilitySet) (sources : List CapabilitySet)
    (c : Capability) :
    c ∈ (s0.derive_from sources).capabilities ↔
      ((∃ src ∈ sources, c ∈ src.capabilities) ∨
       (c = ⟨.UNTRUSTED, "derived"⟩ ∧ ∃ src ∈ sources, src.is_untrusted = true)) := by
  have hfold := mem_foldl_append sources [] c
  unfold CapabilitySet.derive_from
  by_cases hany : (sources.any fun source => source.is_untrusted) = true
  · have hex : ∃ src ∈ sources, src.is_untrusted = true := by
      simpa using List.any_eq_true.mp hany
    rw [if_pos hany]
    simp only [List.mem_append, hfold, List.mem_singleton, List.not_mem_nil, false_or]
    constructor
    · rintro (h | rfl)
      · exact Or.inl h
      · exact Or.inr ⟨rfl, hex⟩
    · rintro (h | ⟨rfl, _⟩)
      · exact Or.inl h
      · exact Or.inr rfl
  · have hnone : ∀ src ∈ sources, src.is_untrusted = false := by
      intro src hsrc
      by_contra hcon
      exact hany (List.any_eq_true.mpr ⟨src, hsrc, by simpa using hcon⟩)
    rw [if_neg hany]
    simp only [hfold, List.not_mem_nil, false_or]
    constructor
    · exact Or.inl
    · rintro (h | ⟨rfl, src, hsrc, hu⟩)
      · exact h
      · exact absurd hu (by simp [hnone src hsrc])

/-! ## Claim C9 -/

/-- Counterexample for C9 as stated: when no source variable is bound,
`derive_capabilities` performs no write at all, so a previously bound
target keeps its old labels instead of becoming unbound. -/
theorem derive_no_source_keeps_binding_cex :
    (trackerBoundTarget.derive_capabilities "target" ["unbound_src"]).get_capabilities
      "target" = some untrustedExternal := by
  decide

/-- Claim C9, amended: when no source variable is bound,
`derive_capabilities` leaves the tracker entirely unchanged — the target
retains its previous binding, and is absent only if it was absent before
the call. -/
theorem derive_capabilities_no_bound_source_noop (t : CapabilityTracker)
    (result_var : String) (source_vars : List String)
    (h : ∀ v ∈ source_vars, t.get_capabilities v = Option.none) :
    t.derive_capabilities result_var source_vars = t :=
  derive_capabilities_unbound t result_var source_vars h

/-- Witness for the amended C9: a tracker whose `target` is bound, derived
over the single unbound source `unbound_src`. -/
theorem derive_capabilities_no_bound_source_noop_witness :
    (∀ v ∈ ["unbound_src"], trackerBoundTarget.get_capabilities v = Option.none) ∧
    trackerBoundTarget.derive_capabilities "target" ["unbound_src"] = trackerBoundTarget :=
  ⟨by decide,
   derive_capabilities_no_bound_source_noop trackerBoundTarget "target" ["unbound_src"]
     (by decide)⟩

/-! ## Claim C7 -/

/-- Counterexample for C7 as stated: the output `abc` under schema
`integer` is not parseable as a signed decimal integer, yet the validator
accepts it unchanged — `_validate_output` has no `integer` branch. -/
theorem validate_output_integer_unchecked_cex :
    QuarantinedLLM.validate_output "abc" "integer" = .ok "abc" ∧
    spec_integer_parseable "abc" = false :=
  ⟨rfl, by decide⟩

/-- Claim C7, amended: the validator strips the output and raises exactly
when the `email` schema output lacks `@` or lacks `.`, when the `string`
schema output exceeds 1000 characters, or when the `filename` schema output
contains one of the characters in `invalid_chars`.  Outputs under any other
schema — `integer` included — are never rejected, and `email` outputs have
no length bound. -/
theorem validate_output_error_spec (output schema : String) :
    (∃ e, QuarantinedLLM.validate_output output schema = .error e) ↔
      ((schema = "email" ∧
          (pyHasChar (pyStrip output) '@' = false ∨ pyHasChar (pyStrip output) '.' = false)) ∨
       (schema = "string" ∧ 1000 < (pyStrip output).length) ∨
       (schema = "filename" ∧
          (QuarantinedLLM.invalid_chars.data.any fun char =>
            pyHasChar (pyStrip output) char) = true)) := by
  have hes : ("email" : String) ≠ "string" := by decide
  have hef : ("email" : String) ≠ "filename" := by decide
  have hsf : ("string" : String) ≠ "filename" := by decide
  unfold QuarantinedLLM.validate_output
  by_cases h1 : schema = "email"
  · subst h1
    rw [if_pos rfl]
    by_cases hc : (!pyHasChar (pyStrip output) '@' || !pyHasChar (pyStrip output) '.') = true
    · rw [if_pos hc]
      simp only [Bool.or_eq_true, Bool.not_eq_true'] at hc
      simp [hc, hes, hef]
    · rw [if_neg hc]
      simp only [Bool.or_eq_true, Bool.not_eq_true'] at hc
      push_neg at hc
      simp [hc, hes, hef]
  · rw [if_neg h1]
    by_cases h2 : schema = "string"
    · subst h2
      rw [if_pos rfl]
      by_cases hc : (pyStrip output).length > 1000
      · rw [if_pos hc]
        simp [hc, hes.symm, hsf]
      · rw [if_neg hc]
        simp [hc, hes.symm, hsf]
    · rw [if_neg h2]
      by_cases h3 : schema = "filename"
      · subst h3
        rw [if_pos rfl]
        by_cases hc : (QuarantinedLLM.invalid_chars.data.any fun char =>
            pyHasChar (pyStrip output) char) = true
        · rw [if_pos hc]
          simp [hc, hef.symm, hsf.symm]
        · rw [if_neg hc]
          simp [hc, hef.symm, hsf.symm]
      · simp [h1, h2, h3]

/-! ## Claim C8 -/

/-- Claim C8: registering the same tool name from two distinct sources
leaves exactly the first registration in force — the first call returns
`True` and stores its source, the second returns `False`, the stored source
is still the first one, and the name is recorded among the conflicts. -/
theorem tool_shadowing_first_wins (d : ToolShadowingDetector)
    (tool_name sourceA sourceB : String)
    (hnew : d.registered_tools.contains tool_name = false) (hdiff : sourceA ≠ sourceB) :
    (d.register_tool tool_name sourceA).1 = true ∧
    ((d.register_tool tool_name sourceA).2.register_tool tool_name sourceB).1 = false ∧
    ((d.register_tool tool_name sourceA).2.register_tool tool_name
        sourceB).2.tool_sources tool_name = some sourceA ∧
    tool_name ∈ ((d.register_tool tool_name sourceA).2.register_tool tool_name
        sourceB).2.get_tool_conflicts := by
  have hmem : tool_name ∉ d.registered_tools := by simpa using hnew
  have hd1 : d.register_tool tool_name sourceA =
      (true, ⟨d.registered_tools ++ [tool_name],
        fun n => if n = tool_name then some sourceA else d.tool_sources n,
        d.suspicious_duplicates⟩) := by
    unfold ToolShadowingDetector.register_tool
    simp [hmem]
  rw [hd1]
  unfold ToolShadowingDetector.register_tool ToolShadowingDetector.get_tool_conflicts
  simp [hmem, hdiff]

/-- Witness for C8: `send_email` registered from `server-A`, then from
`server-B`, starting from an empty detector. -/
theorem tool_shadowing_first_wins_witness :
    (emptyDetector.register_tool "send_email" "server-A").1 = true ∧
    ((emptyDetector.register_tool "send_email" "server-A").2.register_tool "send_email"
        "server-B").1 = false ∧
    ((emptyDetector.register_tool "send_email" "server-A").2.register_tool "send_email"
        "server-B").2.tool_sources "send_email" = some "server-A" ∧
    "send_email" ∈ ((emptyDetector.register_tool "send_email" "server-A").2.register_tool
        "send_email" "server-B").2.get_tool_conflicts :=
  tool_shadowing_first_wins emptyDetector "send_email" "server-A" "server-B" rfl (by decide)

/-! ## Claim C5 -/

/-- The messages the validator can reject a tree with: the
"Unknown/disallowed construct" report for an `arguments` node, or a
"Forbidden construct" report naming a forbidden class. -/
def RejectionMsg (m : String) : Prop :=
  m = "Unknown/disallowed construct: arguments" ∨
  ∃ c, c ∈ FORBIDDEN_CONSTRUCTS ∧ m = "Forbidden construct: " ++ c

/-- Outcome specification for the validator: `b` says whether the tree
contains a forbidden construct and `o` is the error message of the first
rejected node in visit order; `visit` succeeds exactly when no node is
rejected (so in particular `b = false` then), and otherwise raises `o`'s
message. -/
def VSpec (b : Bool) (o : Option String) (r : Except String Unit) : Prop :=
  (b = false ∧ o = Option.none ∧ r = .ok ()) ∨
  (∃ m, o = some m ∧ RejectionMsg m ∧ r = .error m)

/-- The success case of `VSpec`. -/
theorem VSpec.ok : VSpec false Option.none (.ok ()) := Or.inl ⟨rfl, rfl, rfl⟩

/-- The forbidden-construct error case of `VSpec`. -/
theorem VSpec.err {b : Bool} (c : String) (h : c ∈ FORBIDDEN_CONSTRUCTS) :
    VSpec b (some ("Forbidden construct: " ++ c))
      (.error ("Forbidden construct: " ++ c)) :=
  Or.inr ⟨"Forbidden construct: " ++ c, rfl, Or.inr ⟨c, h, rfl⟩, rfl⟩

/-- The unknown-construct error case of `VSpec`, raised on `arguments`
nodes. -/
theorem VSpec.errArguments {b : Bool} :
    VSpec b (some "Unknown/disallowed construct: arguments")
      (.error "Unknown/disallowed construct: arguments") :=
  Or.inr ⟨"Unknown/disallowed construct: arguments", rfl, Or.inl rfl, rfl⟩

/-- `VSpec` composes over sequencing two visits. -/
theorem VSpec.seq {b1 b2 : Bool} {o1 o2 : Option String} {r1 r2 : Except String Unit}
    (h1 : VSpec b1 o1 r1) (h2 : VSpec b2 o2 r2) :
    VSpec (b1 || b2) (o1.or o2) (do r1; r2) := by
  rcases h1 with ⟨hb, ho, hr⟩ | ⟨m, ho, hm, hr⟩
  · subst hb
    subst ho
    subst hr
    simpa using h2
  · subst ho
    subst hr
    exact Or.inr ⟨m, rfl, hm, rfl⟩

mutual

/-- The validator meets `VSpec` on every tree. -/
theorem visit_spec : (a : Ast) →
    VSpec a.containsForbidden a.firstRejection (RestrictedASTVisitor.visit a)
  | .module stmts => visitList_spec stmts
  | .exprStmt e => visit_spec e
  | .assign targets value => (visitList_spec targets).seq (visit_spec value)
  | .name _ => VSpec.ok
  | .constant _ => VSpec.ok
  | .call f args keywords => by
      have h := (visit_spec f).seq ((visitList_spec args).seq (visitKeywords_spec keywords))
      rw [← Bool.or_assoc, ← Option.or_assoc] at h
      exact h
  | .ret value => visitOpt_spec value
  | .ifStmt test body orelse => by
      have h := (visit_spec test).seq ((visitList_spec body).seq (visitList_spec orelse))
      rw [← Bool.or_assoc, ← Option.or_assoc] at h
      exact h
  | .compare left rest => (visit_spec left).seq (visitCmps_spec rest)
  | .binOp _ l r => (visit_spec l).seq (visit_spec r)
  | .boolOp _ values => visitList_spec values
  | .unaryOp _ operand => visit_spec operand
  | .listDisp elts => visitList_spec elts
  | .tupleDisp elts => visitList_spec elts
  | .dictDisp pairs => visitPairs_spec pairs
  | .subscript value idx => (visit_spec value).seq (visit_spec idx)
  | .sliceNode lower upper step => by
      have h := (visitOpt_spec lower).seq ((visitOpt_spec upper).seq (visitOpt_spec step))
      rw [← Bool.or_assoc, ← Option.or_assoc] at h
      exact h
  | .attributeAccess value _ => visit_spec value
  | .functionDef args body => (visit_spec args).seq (visitList_spec body)
  | .argumentsNode => VSpec.errArguments
  | .importStmt => VSpec.err "Import" (by decide)
  | .importFrom => VSpec.err "ImportFrom" (by decide)
  | .globalStmt => VSpec.err "Global" (by decide)
  | .nonlocalStmt => VSpec.err "Nonlocal" (by decide)
  | .classDef _ => VSpec.err "ClassDef" (by decide)
  | .asyncFunctionDef _ => VSpec.err "AsyncFunctionDef" (by decide)
  | .withStmt _ => VSpec.err "With" (by decide)
  | .asyncWith _ => VSpec.err "AsyncWith" (by decide)
  | .forStmt _ => VSpec.err "For" (by decide)
  | .asyncFor _ => VSpec.err "AsyncFor" (by decide)
  | .whileStmt _ => VSpec.err "While" (by decide)
  | .tryStmt _ => VSpec.err "Try" (by decide)
  | .lambdaExpr _ => VSpec.err "Lambda" (by decide)
  | .yieldExpr _ => VSpec.err "Yield" (by decide)
  | .yieldFrom _ => VSpec.err "YieldFrom" (by decide)
  | .awaitExpr _ => VSpec.err "Await" (by decide)

/-- `visit_spec` lifted to statement lists. -/
theorem visitList_spec :
    (l : List Ast) →
      VSpec (listContainsForbidden l) (listFirstRejection l)
        (RestrictedASTVisitor.visitList l)
  | [] => VSpec.ok
  | a :: rest => (visit_spec a).seq (visitList_spec rest)

/-- `visit_spec` lifted to keyword-argument lists. -/
theorem visitKeywords_spec :
    (l : List (String × Ast)) →
      VSpec (kwContainsForbidden l) (kwFirstRejection l)
        (RestrictedASTVisitor.visitKeywords l)
  | [] => VSpec.ok
  | (_, a) :: rest => (visit_spec a).seq (visitKeywords_spec rest)

/-- `visit_spec` lifted to comparison chains. -/
theorem visitCmps_spec :
    (l : List (CmpOp × Ast)) →
      VSpec (cmpContainsForbidden l) (cmpFirstRejection l)
        (RestrictedASTVisitor.visitCmps l)
  | [] => VSpec.ok
  | (_, a) :: rest => (visit_spec a).seq (visitCmps_spec rest)

/-- `visit_spec` lifted to dict key/value pair lists. -/
theorem visitPairs_spec :
    (l : List (Ast × Ast)) →
      VSpec (pairContainsForbidden l) (pairFirstRejection l)
        (RestrictedASTVisitor.visitPairs l)
  | [] => VSpec.ok
  | (k, v) :: rest => by
      have h := (visit_spec k).seq ((visit_spec v).seq (visitPairs_spec rest))
      rw [← Bool.or_assoc, ← Option.or_assoc] at h
      exact h

/-- `visit_spec` lifted to optional children. -/
theorem visitOpt_spec :
    (o : Option Ast) →
      VSpec (optContainsForbidden o) (optFirstRejection o)
        (RestrictedASTVisitor.visitOpt o)
  | Option.none => VSpec.ok
  | some a => visit_spec a

end

/-- Counterexample for C5 as stated: the program `def f(): import os`
contains the forbidden construct `Import` and is rejected before
evaluation, but the rejection message is
"Unknown/disallowed construct: arguments" — every function definition
carries a mandatory `arguments` child, which is in neither `ALLOWED_NODES`
nor `FORBIDDEN_CONSTRUCTS` and is visited before the body — so the message
does not name the offending construct. -/
theorem def_import_message_cex :
    (Ast.module [Ast.functionDef Ast.argumentsNode [Ast.importStmt]]).containsForbidden =
      true ∧
    CaMeLInterpreter.execute sendEmailState
        (Ast.module [Ast.functionDef Ast.argumentsNode [Ast.importStmt]]) =
      (sendEmailState,
       .error "Error executing CaMeL code: Unknown/disallowed construct: arguments") ∧
    ("Error executing CaMeL code: Unknown/disallowed construct: arguments" : String) ≠
      "Error executing CaMeL code: Forbidden construct: Import" :=
  ⟨rfl, rfl, by decide⟩

/-- Claim C5, amended: a program containing any forbidden construct is
rejected purely by AST structure — `execute` returns the state unchanged
(so no registered tool function has been invoked) and evaluation never
starts — with the error of the first node the validator rejects in visit
order.  That message names the offending construct
("Forbidden construct: X") when the forbidden node is rejected first, but
is "Unknown/disallowed construct: arguments" when the mandatory
`arguments` child of a function definition is reached before it. -/
theorem forbidden_construct_rejected (s : InterpState) (prog : Ast)
    (h : prog.containsForbidden = true) :
    ∃ m, prog.firstRejection = some m ∧
      (m = "Unknown/disallowed construct: arguments" ∨
        ∃ c, c ∈ FORBIDDEN_CONSTRUCTS ∧ m = "Forbidden construct: " ++ c) ∧
      CaMeLInterpreter.execute s prog =
        (s, .error ("Error executing CaMeL code: " ++ m)) := by
  rcases visit_spec prog with ⟨hb, -, -⟩ | ⟨m, ho, hm, hr⟩
  · rw [h] at hb
    exact absurd hb (by simp)
  · exact ⟨m, ho, hm, by simp [CaMeLInterpreter.execute, hr]⟩

/-- Witness for the amended C5, applied to `import os` — rejected naming
`Import` — and to `def f(): import os` — rejected with the
`arguments` message — both against the state with `send_email` registered
and both leaving the state (in particular the journal of tool invocations)
unchanged. -/
theorem forbidden_construct_rejected_witness :
    ((Ast.module [Ast.importStmt]).containsForbidden = true ∧
      ∃ m, (Ast.module [Ast.importStmt]).firstRejection = some m ∧
        (m = "Unknown/disallowed construct: arguments" ∨
          ∃ c, c ∈ FORBIDDEN_CONSTRUCTS ∧ m = "Forbidden construct: " ++ c) ∧
        CaMeLInterpreter.execute sendEmailState (Ast.module [Ast.importStmt]) =
          (sendEmailState, .error ("Error executing CaMeL code: " ++ m))) ∧
    ((Ast.module [Ast.functionDef Ast.argumentsNode
        [Ast.importStmt]]).containsForbidden = true ∧
      ∃ m, (Ast.module [Ast.functionDef Ast.argumentsNode
            [Ast.importStmt]]).firstRejection = some m ∧
        (m = "Unknown/disallowed construct: arguments" ∨
          ∃ c, c ∈ FORBIDDEN_CONSTRUCTS ∧ m = "Forbidden construct: " ++ c) ∧
        CaMeLInterpreter.execute sendEmailState
            (Ast.module [Ast.functionDef Ast.argumentsNode [Ast.importStmt]]) =
          (sendEmailState, .error ("Error executing CaMeL code: " ++ m))) :=
  ⟨⟨rfl, forbidden_construct_rejected sendEmailState (Ast.module [Ast.importStmt]) rfl⟩,
   ⟨rfl, forbidden_construct_rejected sendEmailState
      (Ast.module [Ast.functionDef Ast.argumentsNode [Ast.importStmt]]) rfl⟩⟩

/-! ## Claim C1 -/

/-- Claim C1 (code evaluated at the failing inputs): with the email
security policy registered, the program
`send_email(recipient="attacker@evil.com", subject="x", body="y")` and the
program `send_email(email, "x", "y")` with `email` an UNTRUSTED identifier
bound to `attacker@evil.com` both complete successfully and invoke the
underlying `send_email` function — no policy denial occurs, because the
interpreter packs the call data under the context keys `args`, `kwargs` and
`arg_capabilities` while `EmailSecurityPolicy.check` reads the keys
`recipient_value` and `recipient`, which are absent there.  The final
conjunct shows the same policy object does deny when handed the flat
context shape the test-suite uses, isolating the plumbing mismatch. -/
theorem send_email_policy_bypass :
    (CaMeLInterpreter.execute sendEmailState progDenyConst).2 = .ok (.bool true) ∧
    (CaMeLInterpreter.execute sendEmailState progDenyConst).1.calls =
      [("send_email", [],
        [("recipient", .str "attacker@evil.com"), ("subject", .str "x"),
         ("body", .str "y")])] ∧
    (CaMeLInterpreter.execute sendEmailStateU progDenyUntrusted).2 = .ok (.bool true) ∧
    (CaMeLInterpreter.execute sendEmailStateU progDenyUntrusted).1.calls =
      [("send_email", [.str "attacker@evil.com", .str "x", .str "y"], [])] ∧
    emailPolicyDefault.check "send_email" sendEmailStateU.tracker.variable_capabilities
      [("recipient", .str "email"), ("recipient_value", .str "attacker@evil.com")] = false :=
  ⟨rfl, rfl, rfl, rfl, by decide⟩

/-! ## Claim C2 -/

/-- Claim C2 (code evaluated at the failing input): after
`x = query_quarantined_llm("…", "…", "email")` with constant arguments, the
Q-LLM entry point has been invoked and its response bound to `x`, yet the
tracker has no entry for `x` at all — `_query_quarantined_llm` performs no
capability stamping, and the assignment derives labels only from bare-name
arguments.  `impl` ranges over every possible Q-LLM response function. -/
theorem query_quarantined_llm_output_not_stamped (impl : FuncImpl) :
    (CaMeLInterpreter.execute (qllmState impl) progQllmConst).1.tracker.get_capabilities
      "x" = Option.none ∧
    (CaMeLInterpreter.execute (qllmState impl) progQllmConst).2 = .ok Value.none ∧
    (CaMeLInterpreter.execute (qllmState impl) progQllmConst).1.calls =
      [("query_quarantined_llm",
        [.str "Extract Bob's email address", .str "<payload>", .str "email"], [])] ∧
    (CaMeLInterpreter.execute (qllmState impl) progQllmConst).1.vars "x" =
      some (impl [.str "Extract Bob's email address", .str "<payload>", .str "email"] []) :=
  ⟨rfl, rfl, rfl, rfl⟩

/-! ## Claim C6 -/

/-- Counterexample for C6 as stated: the whitelisted program `x = 1 + 2`
passes validation and then aborts with a missing-handler error instead of
being evaluated. -/
theorem binop_no_handler_cex :
    RestrictedASTVisitor.visit
      (.module [.assign [.name "x"]
        (.binOp .add (.constant (.int 1)) (.constant (.int 2)))]) = .ok () ∧
    CaMeLInterpreter.execute sendEmailState
      (.module [.assign [.name "x"]
        (.binOp .add (.constant (.int 1)) (.constant (.int 2)))]) =
      (sendEmailState, .error "Error executing CaMeL code: No handler for BinOp") :=
  ⟨rfl, rfl⟩

/-- Claim C6, amended: every whitelisted construct passes validation, but
only Module, Expr, Call, Name, Constant, Assign, Return, If and Compare
have `_execute_*` handlers; assignments whose right-hand side is a binary
operation, a boolean operation, a unary operation, an attribute access, a
subscript, or a list/tuple/dict display validate and then abort with the
corresponding "No handler" error, leaving the state untouched, while the
handled subset (here: a constant assignment) evaluates normally. -/
theorem whitelisted_ops_lack_handlers (s : InterpState) (x attr : String)
    (op : BinOpKind) (bop : BoolOpKind) (uop : UnaryOpKind) (v w : Value) :
    (RestrictedASTVisitor.visit
        (.module [.assign [.name x] (.binOp op (.constant v) (.constant w))]) = .ok () ∧
      CaMeLInterpreter.execute s
        (.module [.assign [.name x] (.binOp op (.constant v) (.constant w))]) =
        (s, .error "Error executing CaMeL code: No handler for BinOp")) ∧
    CaMeLInterpreter.execute s
        (.module [.assign [.name x] (.boolOp bop [.constant v, .constant w])]) =
      (s, .error "Error executing CaMeL code: No handler for BoolOp") ∧
    CaMeLInterpreter.execute s
        (.module [.assign [.name x] (.unaryOp uop (.constant v))]) =
      (s, .error "Error executing CaMeL code: No handler for UnaryOp") ∧
    CaMeLInterpreter.execute s
        (.module [.assign [.name x] (.attributeAccess (.constant v) attr)]) =
      (s, .error "Error executing CaMeL code: No handler for Attribute") ∧
    CaMeLInterpreter.execute s
        (.module [.assign [.name x] (.subscript (.constant v) (.constant w))]) =
      (s, .error "Error executing CaMeL code: No handler for Subscript") ∧
    CaMeLInterpreter.execute s
        (.module [.assign [.name x] (.listDisp [.constant v])]) =
      (s, .error "Error executing CaMeL code: No handler for List") ∧
    CaMeLInterpreter.execute s
        (.module [.assign [.name x] (.tupleDisp [.constant v])]) =
      (s, .error "Error executing CaMeL code: No handler for Tuple") ∧
    CaMeLInterpreter.execute s
        (.module [.assign [.name x] (.dictDisp [(.constant v, .constant w)])]) =
      (s, .error "Error executing CaMeL code: No handler for Dict") ∧
    (CaMeLInterpreter.execute s (.module [.assign [.name x] (.constant v)])).2 =
      .ok Value.none :=
  ⟨⟨rfl, rfl⟩, rfl, rfl, rfl, rfl, rfl, rfl, rfl, rfl⟩

/-! ## Claim C10 -/

/- Tracker preservation: evaluation of any tree free of `Assign` nodes
never writes the tracker (only `_execute_Assign` calls
`assign_capabilities` / `derive_capabilities`). -/
mutual

/-- Evaluating an assignment-free tree leaves the tracker unchanged. -/
theorem execAst_tracker : (a : Ast) → (s : InterpState) → a.containsAssign = false →
    ((execAst s a).1).tracker = s.tracker
  | .module stmts => fun s h => execStmts_tracker stmts s Value.none h
  | .exprStmt e => fun s h => execAst_tracker e s h
  | .assign _ _ => fun _ h => Bool.noConfusion h
  | .name id => fun s _ => by
      unfold execAst
      cases s.vars id with
      | some v => rfl
      | none =>
        cases s.functions id with
        | some f => rfl
        | none => rfl
  | .constant _ => fun _ _ => rfl
  | .call f args keywords => fun s h => by
      obtain ⟨⟨hf, hargs⟩, hkw⟩ :
          (f.containsAssign = false ∧ listContainsAssign args = false) ∧
            kwContainsAssign keywords = false := by
        simpa [Ast.containsAssign, Bool.or_eq_false_iff] using h
      unfold execAst
      cases getFunctionName f with
      | error e => rfl
      | ok func_name =>
        dsimp only
        cases s.functions func_name with
        | none => rfl
        | some func =>
          dsimp only
          have ha := execArgs_tracker args s hargs
          cases hA : execArgs s args with
          | mk s1 r1 =>
            rw [hA] at ha
            cases r1 with
            | error e => exact ha
            | ok argVals =>
              dsimp only
              have hk := execKeywords_tracker keywords s1 hkw
              cases hK : execKeywords s1 keywords with
              | mk s2 r2 =>
                rw [hK] at hk
                cases r2 with
                | error e => exact hk.trans ha
                | ok kwVals =>
                  dsimp only
                  split
                  · exact hk.trans ha
                  · exact hk.trans ha
  | .ret (some e) => fun s h => execAst_tracker e s h
  | .ret Option.none => fun _ _ => rfl
  | .ifStmt test body orelse => fun s h => by
      obtain ⟨⟨ht, hb⟩, ho⟩ :
          (test.containsAssign = false ∧ listContainsAssign body = false) ∧
            listContainsAssign orelse = false := by
        simpa [Ast.containsAssign, Bool.or_eq_false_iff] using h
      unfold execAst
      have h1 := execAst_tracker test s ht
      cases hT : execAst s test with
      | mk s1 r =>
        rw [hT] at h1
        cases r with
        | error e => exact h1
        | ok t =>
          dsimp only
          split
          · exact (execStmts_tracker body s1 Value.none hb).trans h1
          · split
            · exact h1
            · exact (execStmts_tracker orelse s1 Value.none ho).trans h1
  | .compare left rest => fun s h => by
      obtain ⟨hl, hr⟩ : left.containsAssign = false ∧ cmpContainsAssign rest = false := by
        simpa [Ast.containsAssign, Bool.or_eq_false_iff] using h
      unfold execAst
      have h1 := execAst_tracker left s hl
      cases hL : execAst s left with
      | mk s1 r =>
        rw [hL] at h1
        cases r with
        | error e => exact h1
        | ok l => exact (execCmps_tracker rest s1 l hr).trans h1
  | .binOp _ _ _ => fun _ _ => rfl
  | .boolOp _ _ => fun _ _ => rfl
  | .unaryOp _ _ => fun _ _ => rfl
  | .listDisp _ => fun _ _ => rfl
  | .tupleDisp _ => fun _ _ => rfl
  | .dictDisp _ => fun _ _ => rfl
  | .subscript _ _ => fun _ _ => rfl
  | .sliceNode _ _ _ => fun _ _ => rfl
  | .attributeAccess _ _ => fun _ _ => rfl
  | .functionDef _ _ => fun _ _ => rfl
  | .argumentsNode => fun _ _ => rfl
  | .importStmt => fun _ _ => rfl
  | .importFrom => fun _ _ => rfl
  | .globalStmt => fun _ _ => rfl
  | .nonlocalStmt => fun _ _ => rfl
  | .classDef _ => fun _ _ => rfl
  | .asyncFunctionDef _ => fun _ _ => rfl
  | .withStmt _ => fun _ _ => rfl
  | .asyncWith _ => fun _ _ => rfl
  | .forStmt _ => fun _ _ => rfl
  | .asyncFor _ => fun _ _ => rfl
  | .whileStmt _ => fun _ _ => rfl
  | .tryStmt _ => fun _ _ => rfl
  | .lambdaExpr _ => fun _ _ => rfl
  | .yieldExpr _ => fun _ _ => rfl
  | .yieldFrom _ => fun _ _ => rfl
  | .awaitExpr _ => fun _ _ => rfl

/-- `execAst_tracker` lifted to statement sequences. -/
theorem execStmts_tracker : (l : List Ast) → (s : InterpState) → (res : Value) →
    listContainsAssign l = false → ((execStmts s res l).1).tracker = s.tracker
  | [] => fun _ _ _ => rfl
  | a :: rest => fun s res h => by
      obtain ⟨ha, hrest⟩ : a.containsAssign = false ∧ listContainsAssign rest = false := by
        simpa [listContainsAssign, Bool.or_eq_false_iff] using h
      unfold execStmts
      have h1 := execAst_tracker a s ha
      cases hA : execAst s a with
      | mk s1 r =>
        rw [hA] at h1
        cases r with
        | error e => exact h1
        | ok v => exact (execStmts_tracker rest s1 v hrest).trans h1

/-- `execAst_tracker` lifted to positional-argument lists. -/
theorem execArgs_tracker : (l : List Ast) → (s : InterpState) →
    listContainsAssign l = false → ((execArgs s l).1).tracker = s.tracker
  | [] => fun _ _ => rfl
  | a :: rest => fun s h => by
      obtain ⟨ha, hrest⟩ : a.containsAssign = false ∧ listContainsAssign rest = false := by
        simpa [listContainsAssign, Bool.or_eq_false_iff] using h
      unfold execArgs
      have h1 := execAst_tracker a s ha
      cases hA : execAst s a with
      | mk s1 r =>
        rw [hA] at h1
        cases r with
        | error e => exact h1
        | ok v =>
          dsimp only
          have h2 := execArgs_tracker rest s1 hrest
          cases hR : execArgs s1 rest with
          | mk s2 r2 =>
            rw [hR] at h2
            cases r2 with
            | error e => exact h2.trans h1
            | ok vs => exact h2.trans h1

/-- `execAst_tracker` lifted to keyword-argument lists. -/
theorem execKeywords_tracker : (l : List (String × Ast)) → (s : InterpState) →
    kwContainsAssign l = false → ((execKeywords s l).1).tracker = s.tracker
  | [] => fun _ _ => rfl
  | (k, a) :: rest => fun s h => by
      obtain ⟨ha, hrest⟩ : a.containsAssign = false ∧ kwContainsAssign rest = false := by
        simpa [kwContainsAssign, Bool.or_eq_false_iff] using h
      unfold execKeywords
      have h1 := execAst_tracker a s ha
      cases hA : execAst s a with
      | mk s1 r =>
        rw [hA] at h1
        cases r with
        | error e => exact h1
        | ok v =>
          dsimp only
          have h2 := execKeywords_tracker rest s1 hrest
          cases hR : execKeywords s1 rest with
          | mk s2 r2 =>
            rw [hR] at h2
            cases r2 with
            | error e => exact h2.trans h1
            | ok vs => exact h2.trans h1

/-- `execAst_tracker` lifted to comparison chains. -/
theorem execCmps_tracker : (l : List (CmpOp × Ast)) → (s : InterpState) → (left : Value) →
    cmpContainsAssign l = false → ((execCmps s left l).1).tracker = s.tracker
  | [] => fun _ _ _ => rfl
  | (op, comparator) :: rest => fun s left h => by
      obtain ⟨ha, hrest⟩ :
          comparator.containsAssign = false ∧ cmpContainsAssign rest = false := by
        simpa [cmpContainsAssign, Bool.or_eq_false_iff] using h
      unfold execCmps
      have h1 := execAst_tracker comparator s ha
      cases hA : execAst s comparator with
      | mk s1 r =>
        rw [hA] at h1
        cases r with
        | error e => exact h1
        | ok right =>
          dsimp only
          cases cmpValues op left right with
          | error e => exact h1
          | ok b =>
            cases b with
            | true => exact (execCmps_tracker rest s1 right hrest).trans h1
            | false => exact h1

end

/-- Claim C10: executing an assignment `x = E` whose right-hand side `E` is
neither a bare name with a tracker entry nor a call with a tracker-bound
bare-name positional argument (such as a constant literal) binds the
evaluated value in the value environment but performs no tracker write: the
resulting state keeps the evaluation state's tracker, which in turn equals
the initial tracker — so any labels previously recorded for `x` survive
unchanged.  `E` ranges over the assignment-free trees, which include every
Python expression. -/
theorem assign_non_deriving_frame (s : InterpState) (x : String) (E : Ast)
    (s1 : InterpState) (v : Value)
    (hE : E.containsAssign = false)
    (hname : ∀ y, E = .name y → s.tracker.get_capabilities y = Option.none)
    (hcall : ∀ f cargs kws, E = .call f cargs kws →
      ∀ id ∈ cargs.filterMap (fun arg =>
        match arg with
        | Ast.name i => some i
        | _ => Option.none), s.tracker.get_capabilities id = Option.none)
    (hexec : execAst s E = (s1, .ok v)) :
    execAst s (.assign [.name x] E) =
      ({ s1 with vars := fun n => if n = x then some v else s1.vars n }, .ok Value.none) ∧
    s1.tracker = s.tracker := by
  have htr : s1.tracker = s.tracker := by
    have h0 := execAst_tracker E s hE
    rw [hexec] at h0
    exact h0
  refine ⟨?_, htr⟩
  unfold execAst
  rw [hexec]
  cases E with
  | call f cargs kws =>
    by_cases hsv : cargs.filterMap (fun arg =>
        match arg with
        | Ast.name i => some i
        | _ => Option.none) = []
    · simp only [hsv, if_pos]
    · have hnoop : ({ s1 with
          vars := fun n => if n = x then some v else s1.vars n } :
            InterpState).tracker.derive_capabilities x
          (cargs.filterMap (fun arg =>
            match arg with
            | Ast.name i => some i
            | _ => Option.none)) =
          ({ s1 with vars := fun n => if n = x then some v else s1.vars n } :
            InterpState).tracker := by
        refine derive_capabilities_unbound _ x _ ?_
        intro id hid
        show s1.tracker.get_capabilities id = Option.none
        rw [htr]
        exact hcall f cargs kws rfl id hid
      simp only [if_neg hsv, hnoop]
  | name src =>
    have hs : s1.tracker.get_capabilities src = Option.none := by
      rw [htr]
      exact hname src rfl
    simp only [hs]
  | module stmts => rfl
  | exprStmt e => rfl
  | assign targets value => rfl
  | constant w => rfl
  | ret value => rfl
  | ifStmt test body orelse => rfl
  | compare left rest => rfl
  | binOp op l r => rfl
  | boolOp op values => rfl
  | unaryOp op operand => rfl
  | listDisp elts => rfl
  | tupleDisp elts => rfl
  | dictDisp pairs => rfl
  | subscript value idx => rfl
  | sliceNode lower upper step => rfl
  | attributeAccess value attr => rfl
  | functionDef args body => rfl
  | argumentsNode => rfl
  | importStmt => rfl
  | importFrom => rfl
  | globalStmt => rfl
  | nonlocalStmt => rfl
  | classDef body => rfl
  | asyncFunctionDef body => rfl
  | withStmt body => rfl
  | asyncWith body => rfl
  | forStmt body => rfl
  | asyncFor body => rfl
  | whileStmt body => rfl
  | tryStmt body => rfl
  | lambdaExpr body => rfl
  | yieldExpr value => rfl
  | yieldFrom value => rfl
  | awaitExpr value => rfl

/-- Witness for C10: with `x` carrying a stale UNTRUSTED label, executing
`x = 5` rebinds the value of `x` while the tracker — and hence the stale
label on `x` — is untouched. -/
theorem assign_non_deriving_frame_witness :
    (execAst stateOldLabel (.assign [.name "x"] (.constant (.int 5))) =
      ({ stateOldLabel with
          vars := fun n => if n = "x" then some (.int 5) else stateOldLabel.vars n },
       .ok Value.none) ∧
     stateOldLabel.tracker = stateOldLabel.tracker) ∧
    stateOldLabel.tracker.get_capabilities "x" = some untrustedExternal :=
  ⟨assign_non_deriving_frame stateOldLabel "x" (.constant (.int 5)) stateOldLabel (.int 5)
      rfl (fun _ h => Ast.noConfusion h) (fun _ _ _ h => Ast.noConfusion h) rfl,
   rfl⟩

end Camel
